import Mathlib

/-!
Verification of the TODO-tracker reconciliation core (`todo_tracker` package:
`scanner.py` and `github_client.py`) against its natural-language specification.

Python strings are modelled as `List Char`; python `bytes` as `List Nat`
(each entry < 256); machine integers do not occur (python integers are
unbounded, as is `Nat`).  Fallible operations return `Except`.
-/

set_option maxRecDepth 100000

deriving instance DecidableEq for Except

namespace TodoTracker

/-- Python strings are modelled as lists of characters. -/
abbrev PyStr := List Char

/-- Embed a Lean string literal as a modelled python string. -/
def lit (s : String) : PyStr := s.toList

/-- The newline character, python `'\n'` (used by `str.split('\n')`). -/
def nlChar : Char := Char.ofNat 10

/-- The backtick character (used by `str.split` on a backtick). -/
def btChar : Char := Char.ofNat 96

/-! ## Scanner data model (`scanner.py`) -/

/-- Model of the `TodoItem` dataclass of `scanner.py`: file path, 1-based
line number, comment content and the literal marker casing matched. -/
structure TodoItem where
  file_path : PyStr
  line_number : Nat
  content : PyStr
  todo_type : PyStr
deriving DecidableEq

/-- Model of the `TodoScanner` configuration: the `ignore_dirs` and
`ignore_patterns` lists given to `TodoScanner.__init__`. -/
structure TodoScanner where
  ignore_dirs : List PyStr
  ignore_patterns : List PyStr
deriving DecidableEq

/-- ASCII whitespace as matched by python's `\s` and stripped by
`str.strip()` (space, tab, newline, carriage return, vertical tab,
form feed).  Non-ASCII unicode whitespace is out of scope of the claims. -/
def pySpace (c : Char) : Bool :=
  c == ' ' || c == Char.ofNat 9 || c == nlChar || c == Char.ofNat 13 ||
  c == Char.ofNat 11 || c == Char.ofNat 12

/-- Model of python `str.strip()`: drop whitespace from both ends. -/
def pyStrip (l : PyStr) : PyStr :=
  ((l.dropWhile pySpace).reverse.dropWhile pySpace).reverse

/-- Does the list start with a case-insensitive occurrence of `todo`?
This is the test the regex alternation `TODO|todo|ToDo` performs at one
position under `re.IGNORECASE` (all three alternatives are the same
4-letter word up to case). -/
def todoAt (l : PyStr) : Bool :=
  match l with
  | c1 :: c2 :: c3 :: c4 :: _ =>
    c1.toLower == 't' && c2.toLower == 'o' && c3.toLower == 'd' && c4.toLower == 'o'
  | _ => false

/-- Leftmost match of the marker part of `todo_pattern`: returns the four
matched characters (the `todo_type` group, preserving the casing found)
and the remainder of the line after them.  `re.search` scans positions
left to right, so the first position where the alternation matches wins. -/
def findTodo : PyStr → Option (PyStr × PyStr)
  | [] => none
  | l@(_ :: rest) => if todoAt l then some (l.take 4, l.drop 4) else findTodo rest

/-- Model of matching `todo_pattern` against one line and extracting the
groups as `scan_file` does: after the marker, the greedy optional
separator `(?:\s*:?\s*)?` consumes maximal whitespace, at most one colon,
then maximal whitespace; the `content` group is the rest of the line and
is then stripped.  Returns `(todo_type, stripped content)` for the first
match, or `none` when the line has no match. -/
def scanLine (line : PyStr) : Option (PyStr × PyStr) :=
  (findTodo line).map (fun p =>
    let r1 := p.2.dropWhile pySpace
    let r2 := match r1 with
      | ':' :: t => t
      | _ => r1
    let r3 := r2.dropWhile pySpace
    (p.1, pyStrip r3))

/-- Model of the line loop of `TodoScanner.scan_file`: lines are numbered
from 1 (`enumerate(lines, 1)`); a matching line yields one `TodoItem`,
falling back to the whole stripped line when the content group strips to
empty.  Lines are modelled without their trailing newline (the regex `.`
never matches `\n` and `strip()` would remove it anyway). -/
def scan_file_lines (file_path : PyStr) : Nat → List PyStr → List TodoItem
  | _, [] => []
  | n, line :: rest =>
    (match scanLine line with
     | some (marker, content) =>
       [{ file_path := file_path, line_number := n,
          content := if content.isEmpty then pyStrip line else content,
          todo_type := marker }]
     | none => []) ++ scan_file_lines file_path (n + 1) rest

/-- Model of `TodoScanner.scan_file`.  `readable = false` models the
`IOError/OSError/PermissionError` handler: the file is skipped with a
warning and contributes no items.  Decoding never fails (utf-8 with a
latin-1 fallback), so a readable file always yields its lines. -/
def scan_file (file_path : PyStr) (readable : Bool) (lines : List PyStr) : List TodoItem :=
  if readable then scan_file_lines file_path 1 lines else []

/-- Glob matching of one path component, as used by `pathlib.Path.match`
for the patterns of `ignore_patterns` (`*` matches any run of characters,
`?` any single character, other characters literally; the default
patterns `*.pyc`, `*.log`, `*.tmp` use only `*`). -/
def globMatch : PyStr → PyStr → Bool
  | [], s => s.isEmpty
  | c :: ps, s =>
    if c == '*' then
      globMatch ps s ||
        (match s with
         | [] => false
         | _ :: s' => globMatch (c :: ps) s')
    else
      match s with
      | [] => false
      | d :: s' => (if c == '?' then true else c == d) && globMatch ps s'
termination_by p s => (s.length, p.length)

/-- Model of `pathlib.Path.match` with a relative pattern: the pattern's
slash-separated components are matched against the trailing components
of the path. -/
def path_match (path pattern : PyStr) : Bool :=
  let pcomps := pattern.splitOn '/'
  let comps := path.splitOn '/'
  decide (pcomps.length ≤ comps.length) &&
    ((comps.drop (comps.length - pcomps.length)).zip pcomps).all
      (fun q => globMatch q.2 q.1)

/-- Model of `TodoScanner.should_ignore_file`. -/
def should_ignore_file (s : TodoScanner) (file_path : PyStr) : Bool :=
  s.ignore_patterns.any (fun pat => path_match file_path pat)

/-- Model of `TodoScanner.should_ignore_directory`. -/
def should_ignore_directory (s : TodoScanner) (dir_name : PyStr) : Bool :=
  s.ignore_dirs.contains dir_name

/-- A directory tree as enumerated by `os.walk`: a file carries its name,
readability and lines; a directory carries its base name and children. -/
inductive FSNode where
  | file (name : PyStr) (readable : Bool) (lines : List PyStr)
  | dir (name : PyStr) (children : List FSNode)

/-- Path concatenation `Path(root) / name`. -/
def joinPath (p n : PyStr) : PyStr := p ++ '/' :: n

/-- The file pass of one `os.walk` step: every file of the current
directory is either skipped by `should_ignore_file` or scanned; directory
entries are handled by the recursive pass. -/
def walk_files (s : TodoScanner) (root : PyStr) : List FSNode → List TodoItem
  | [] => []
  | FSNode.file name readable lines :: rest =>
    (if should_ignore_file s (joinPath root name) then []
     else scan_file (joinPath root name) readable lines) ++ walk_files s root rest
  | FSNode.dir _ _ :: rest => walk_files s root rest

mutual
/-- One `os.walk` step at a directory: scan the files of the directory,
then descend into the subdirectories that survive the in-place pruning
`dirs[:] = [d for d in dirs if not self.should_ignore_directory(d)]`. -/
def walk_tree (s : TodoScanner) (root : PyStr) (children : List FSNode) : List TodoItem :=
  walk_files s root children ++ walk_dirs s root children
termination_by (sizeOf children, 1)

/-- Descend into the non-pruned subdirectories, in order.  A subdirectory
whose base name is in `ignore_dirs` is removed before recursing, so its
subtree is never visited. -/
def walk_dirs (s : TodoScanner) (root : PyStr) : List FSNode → List TodoItem
  | [] => []
  | FSNode.file _ _ _ :: rest => walk_dirs s root rest
  | FSNode.dir name cs :: rest =>
    (if should_ignore_directory s name then []
     else walk_tree s (joinPath root name) cs) ++ walk_dirs s root rest
termination_by children => (sizeOf children, 0)
end

/-- Model of `TodoScanner.scan_directory`.  The `root` argument models
what the filesystem holds at `directory_path`: `none` when the path does
not exist, a file node when it exists but is not a directory, a directory
node otherwise.  The two `raise ValueError(...)` statements are modelled
as `Except.error` carrying the exact message. -/
def scan_directory (s : TodoScanner) (directory_path : PyStr) (root : Option FSNode) :
    Except PyStr (List TodoItem) :=
  match root with
  | none => Except.error (lit "Directory does not exist: " ++ directory_path)
  | some (FSNode.file _ _ _) =>
    Except.error (lit "Path is not a directory: " ++ directory_path)
  | some (FSNode.dir _ children) => Except.ok (walk_tree s directory_path children)

/-- The default scanner configuration built by `TodoScanner.__init__`. -/
def defaultScanner : TodoScanner :=
  { ignore_dirs := [lit ".git", lit "__pycache__", lit "node_modules", lit ".pytest_cache"],
    ignore_patterns := [lit "*.pyc", lit "*.log", lit "*.tmp"] }

/-! ## Scanner lemmas -/

theorem walk_files_append (s : TodoScanner) (root : PyStr) (a b : List FSNode) :
    walk_files s root (a ++ b) = walk_files s root a ++ walk_files s root b := by
  induction a with
  | nil => simp [walk_files]
  | cons n rest ih =>
    cases n <;> simp [walk_files, ih]

theorem walk_dirs_append (s : TodoScanner) (root : PyStr) (a b : List FSNode) :
    walk_dirs s root (a ++ b) = walk_dirs s root a ++ walk_dirs s root b := by
  induction a with
  | nil => simp [walk_dirs]
  | cons n rest ih =>
    cases n <;> simp [walk_dirs, ih]

/-! ## Claims C6, C7, C8 -/

/-- C6: line matching captures the marker casing and trailing content,
with whole-line fallback: `"// TODO: Fix this"` yields marker `TODO` and
content `Fix this`; `"# todo implement feature"` yields marker `todo` and
content `implement feature`; the bare line `"TODO"` yields content equal
to the full trimmed line `TODO`; and a line produces at most one
occurrence (first match wins). -/
theorem claim6_line_matching :
    (scan_file_lines (lit "f") 1 [lit "// TODO: Fix this"] =
      [⟨lit "f", 1, lit "Fix this", lit "TODO"⟩]) ∧
    (scan_file_lines (lit "f") 1 [lit "# todo implement feature"] =
      [⟨lit "f", 1, lit "implement feature", lit "todo"⟩]) ∧
    (scan_file_lines (lit "f") 1 [lit "TODO"] =
      [⟨lit "f", 1, lit "TODO", lit "TODO"⟩]) ∧
    (scan_file_lines (lit "f") 1 [lit "TODO a TODO b"] =
      [⟨lit "f", 1, lit "a TODO b", lit "TODO"⟩]) ∧
    (∀ path n line, (scan_file_lines path n [line]).length ≤ 1) := by
  refine ⟨by decide, by decide, by decide, by decide, ?_⟩
  intro path n line
  cases h : scanLine line with
  | none => simp [scan_file_lines, h]
  | some p => simp [scan_file_lines, h]

/-- C7: ignored-directory pruning.  For every scanner configuration and
directory tree, a child directory whose base name is in `ignore_dirs` is
pruned before recursing: the scan result is the same as if that whole
subtree were absent, so no file inside it (whatever its contents) ever
appears in the results.  Since `walk_tree` is applied recursively at
every level, this holds at every depth of the tree. -/
theorem claim7_ignored_dir_pruning (s : TodoScanner) (root name : PyStr)
    (cs : List FSNode) (pre post : List FSNode)
    (h : should_ignore_directory s name = true) :
    walk_tree s root (pre ++ FSNode.dir name cs :: post) =
      walk_tree s root (pre ++ post) := by
  rw [walk_tree, walk_tree]
  rw [show FSNode.dir name cs :: post = [FSNode.dir name cs] ++ post from rfl]
  rw [walk_files_append, walk_files_append, walk_files_append,
    walk_dirs_append, walk_dirs_append, walk_dirs_append]
  simp [walk_files, walk_dirs, h]

/-- Witness for C7: under the default configuration, a `__pycache__`
directory containing a file whose line matches the TODO pattern is
pruned: the scan of the surrounding tree equals the scan without it. -/
theorem claim7_witness :
    walk_tree defaultScanner (lit "r")
      ([FSNode.file (lit "a.py") true [lit "# TODO: x"]] ++
        FSNode.dir (lit "__pycache__")
          [FSNode.file (lit "x.py") true [lit "# TODO: x"]] :: []) =
    walk_tree defaultScanner (lit "r")
      ([FSNode.file (lit "a.py") true [lit "# TODO: x"]] ++ []) :=
  claim7_ignored_dir_pruning defaultScanner (lit "r") (lit "__pycache__")
    [FSNode.file (lit "x.py") true [lit "# TODO: x"]]
    [FSNode.file (lit "a.py") true [lit "# TODO: x"]] [] (by decide)

/-- C8: `scan_directory` fails exactly when the root path is bad, with
distinguished errors (the code raises `ValueError` with two distinct
messages, realizing the spec's abstract `NotFoundError` and
`NotADirectoryError`); for an existing directory it always returns a
result, and an individual unreadable file contributes nothing instead of
failing the scan. -/
theorem claim8_scan_errors (s : TodoScanner) (p : PyStr) :
    (scan_directory s p none =
      Except.error (lit "Directory does not exist: " ++ p)) ∧
    (∀ name r lines, scan_directory s p (some (FSNode.file name r lines)) =
      Except.error (lit "Path is not a directory: " ++ p)) ∧
    (∀ name children, ∃ todos,
      scan_directory s p (some (FSNode.dir name children)) = Except.ok todos) ∧
    (lit "Directory does not exist: " ++ p ≠ lit "Path is not a directory: " ++ p) ∧
    (∀ fp lines, scan_file fp false lines = []) := by
  refine ⟨rfl, fun _ _ _ => rfl, fun name children => ⟨_, rfl⟩, ?_, fun _ _ => rfl⟩
  intro h
  have := congrArg List.length h
  simp [lit] at this

/-! ## SHA-256 (FIPS 180-4), the digest computed by python `hashlib.sha256`
in `GitHubTodoClient._generate_todo_hash`.  Words are `Nat` reduced
modulo `2 ^ 32` explicitly. -/

/-- Reduce modulo `2 ^ 32`. -/
def w32 (n : Nat) : Nat := n % 4294967296

/-- Right rotation of a 32-bit word by `k` places (for `x < 2 ^ 32`). -/
def rotr (k x : Nat) : Nat := x / 2 ^ k + x % 2 ^ k * 2 ^ (32 - k)

/-- Logical right shift by `k` places. -/
def shr (k x : Nat) : Nat := x / 2 ^ k

/-- The `Σ₀` function of SHA-256. -/
def bigS0 (x : Nat) : Nat := Nat.xor (rotr 2 x) (Nat.xor (rotr 13 x) (rotr 22 x))

/-- The `Σ₁` function of SHA-256. -/
def bigS1 (x : Nat) : Nat := Nat.xor (rotr 6 x) (Nat.xor (rotr 11 x) (rotr 25 x))

/-- The `σ₀` function of SHA-256. -/
def smallS0 (x : Nat) : Nat := Nat.xor (rotr 7 x) (Nat.xor (rotr 18 x) (shr 3 x))

/-- The `σ₁` function of SHA-256. -/
def smallS1 (x : Nat) : Nat := Nat.xor (rotr 17 x) (Nat.xor (rotr 19 x) (shr 10 x))

/-- The `Ch` function (32-bit complement written as xor with the mask). -/
def chFn (x y z : Nat) : Nat :=
  Nat.xor (Nat.land x y) (Nat.land (Nat.xor x 4294967295) z)

/-- The `Maj` function. -/
def majFn (x y z : Nat) : Nat :=
  Nat.xor (Nat.land x y) (Nat.xor (Nat.land x z) (Nat.land y z))

/-- The 64 round constants of SHA-256 (in decimal). -/
def K256 : List Nat :=
  [1116352408, 1899447441, 3049323471, 3921009573, 961987163, 1508970993,
   2453635748, 2870763221, 3624381080, 310598401, 607225278, 1426881987,
   1925078388, 2162078206, 2614888103, 3248222580, 3835390401, 4022224774,
   264347078, 604807628, 770255983, 1249150122, 1555081692, 1996064986,
   2554220882, 2821834349, 2952996808, 3210313671, 3336571891, 3584528711,
   113926993, 338241895, 666307205, 773529912, 1294757372, 1396182291,
   1695183700, 1986661051, 2177026350, 2456956037, 2730485921, 2820302411,
   3259730800, 3345764771, 3516065817, 3600352804, 4094571909, 275423344,
   430227734, 506948616, 659060556, 883997877, 958139571, 1322822218,
   1537002063, 1747873779, 1955562222, 2024104815, 2227730452, 2361852424,
   2428436474, 2756734187, 3204031479, 3329325298]

/-- The initial hash value of SHA-256 (in decimal). -/
def sha256Init : List Nat :=
  [1779033703, 3144134277, 1013904242, 2773480762,
   1359893119, 2600822924, 528734635, 1541459225]

/-- The `k` bytes of `n`, most significant first. -/
def beBytes : Nat → Nat → List Nat
  | 0, _ => []
  | k + 1, n => (n / 2 ^ (8 * k) % 256) :: beBytes k n

/-- SHA-256 padding: append `0x80`, zero bytes up to 56 mod 64, then the
bit length as 8 big-endian bytes. -/
def sha256Pad (msg : List Nat) : List Nat :=
  let L := msg.length
  let zeros := (64 + 55 - L % 64) % 64
  msg ++ 128 :: (List.replicate zeros 0 ++ beBytes 8 (8 * L))

/-- Group bytes into 32-bit big-endian words. -/
def bytesToWords : List Nat → List Nat
  | b1 :: b2 :: b3 :: b4 :: rest =>
    (((b1 * 256 + b2) * 256 + b3) * 256 + b4) :: bytesToWords rest
  | _ => []

/-- Split a byte list into 64-byte blocks; the fuel (first argument) is
an upper bound on the number of blocks, so recursion is structural and
the definition evaluates in the kernel. -/
def blocksGo : Nat → List Nat → List (List Nat)
  | 0, _ => []
  | fuel + 1, l =>
    match l with
    | [] => []
    | _ :: _ => l.take 64 :: blocksGo fuel (l.drop 64)

/-- Split a byte list into 64-byte blocks. -/
def blocks64 (l : List Nat) : List (List Nat) := blocksGo (l.length / 64 + 1) l

/-- Extend the 16 message words by `k` further schedule words. -/
def schedGo : Nat → List Nat → List Nat
  | 0, acc => acc
  | k + 1, acc =>
    let t := acc.length
    schedGo k (acc ++ [w32 (smallS1 (acc.getD (t - 2) 0) + acc.getD (t - 7) 0 +
      smallS0 (acc.getD (t - 15) 0) + acc.getD (t - 16) 0)])

/-- The SHA-256 round function iterated over the schedule: `regs` is the
register list `[a, b, c, d, e, f, g, h]`. -/
def roundGo (ws : List Nat) : Nat → Nat → List Nat → List Nat
  | 0, _, regs => regs
  | k + 1, t, regs =>
    let a := regs.getD 0 0
    let b := regs.getD 1 0
    let c := regs.getD 2 0
    let d := regs.getD 3 0
    let e := regs.getD 4 0
    let f := regs.getD 5 0
    let g := regs.getD 6 0
    let h := regs.getD 7 0
    let T1 := w32 (h + bigS1 e + chFn e f g + K256.getD t 0 + ws.getD t 0)
    let T2 := w32 (bigS0 a + majFn a b c)
    roundGo ws k (t + 1) [w32 (T1 + T2), a, b, c, w32 (d + T1), e, f, g]

/-- Compress one 64-byte block into the running hash. -/
def sha256Compress (h : List Nat) (block : List Nat) : List Nat :=
  let regs := roundGo (schedGo 48 (bytesToWords block)) 64 0 h
  List.zipWith (fun x y => w32 (x + y)) h regs

/-- SHA-256 of a byte list, as the eight 32-bit hash words. -/
def sha256Words (msg : List Nat) : List Nat :=
  (blocks64 (sha256Pad msg)).foldl sha256Compress sha256Init

/-- The sixteen lowercase hex digits, as produced by `hexdigest()`. -/
def hexChars : PyStr := lit "0123456789abcdef"

/-- The hex digit of `d mod 16`. -/
def hexDigit (d : Nat) : Char := hexChars.getD (d % 16) '0'

/-- Eight hex characters of one 32-bit word, most significant first. -/
def wordHex (w : Nat) : PyStr :=
  [hexDigit (w / 16 ^ 7), hexDigit (w / 16 ^ 6), hexDigit (w / 16 ^ 5),
   hexDigit (w / 16 ^ 4), hexDigit (w / 16 ^ 3), hexDigit (w / 16 ^ 2),
   hexDigit (w / 16), hexDigit w]

/-- Model of `hashlib.sha256(...).hexdigest()`: 64 lowercase hex chars. -/
def sha256Hex (msg : List Nat) : PyStr := ((sha256Words msg).map wordHex).flatten

/-- UTF-8 encoding of one character, as python `str.encode()` encodes it
(`Char` excludes surrogates, exactly the code points `encode` accepts). -/
def utf8Char (c : Char) : List Nat :=
  let n := c.toNat
  if n < 128 then [n]
  else if n < 2048 then [192 + n / 64, 128 + n % 64]
  else if n < 65536 then [224 + n / 4096, 128 + n / 64 % 64, 128 + n % 64]
  else [240 + n / 262144, 128 + n / 4096 % 64, 128 + n / 64 % 64, 128 + n % 64]

/-- Model of python `str.encode()` (UTF-8 bytes). -/
def utf8Encode (l : PyStr) : List Nat := (l.map utf8Char).flatten

/-- Decimal digits of `n` accumulated onto `acc`; the fuel is an upper
bound on the number of digits. -/
def natStrGo : Nat → Nat → PyStr → PyStr
  | 0, _, acc => acc
  | f + 1, n, acc =>
    let acc' := Char.ofNat (48 + n % 10) :: acc
    if n < 10 then acc' else natStrGo f (n / 10) acc'

/-- Model of python `str(n)` for a non-negative integer. -/
def natStr (n : Nat) : PyStr := natStrGo (n + 1) n []

/-- Model of `GitHubTodoClient._generate_todo_hash`: first 8 hex characters
of the SHA-256 of the UTF-8 bytes of `f"{file_path}:{line_number}:{content}"`. -/
def generate_todo_hash (t : TodoItem) : PyStr :=
  (sha256Hex (utf8Encode
    (t.file_path ++ lit ":" ++ natStr t.line_number ++ lit ":" ++ t.content))).take 8

/-! Test vectors pinning the SHA-256 model to the real function. -/

theorem sha256Hex_empty :
    sha256Hex [] =
      lit "e3b0c44298fc1c149afbf4c8996fb92427ae41e4649b934ca495991b7852b855" := by
  decide

theorem sha256Hex_abc :
    sha256Hex (utf8Encode (lit "abc")) =
      lit "ba7816bf8f01cfea414140de5dae2223b00361a396177a9cb410ff61f20015ad" := by
  decide

theorem generate_todo_hash_sample :
    generate_todo_hash ⟨lit "src/main.py", 42, lit "Fix this", lit "TODO"⟩ =
      lit "a30f0c22" := by
  decide

/-- C2: the fingerprint is a pure deterministic function of the triple
`(file_path, line_number, content)`: it equals the first 8 hex characters
of the SHA-256 digest of the UTF-8 bytes of the colon-joined triple, so
two items with equal triples (whatever their `todo_type`) have equal
fingerprints. -/
theorem claim2_fingerprint_deterministic (a b : TodoItem)
    (h1 : a.file_path = b.file_path) (h2 : a.line_number = b.line_number)
    (h3 : a.content = b.content) :
    generate_todo_hash a = generate_todo_hash b ∧
    generate_todo_hash a = (sha256Hex (utf8Encode
      (a.file_path ++ lit ":" ++ natStr a.line_number ++ lit ":" ++ a.content))).take 8 := by
  refine ⟨?_, rfl⟩
  simp [generate_todo_hash, h1, h2, h3]

/-- Witness for C2 at concrete items differing only in `todo_type`. -/
theorem claim2_witness :
    (TodoItem.mk (lit "f") 1 (lit "x") (lit "TODO")).file_path =
      (TodoItem.mk (lit "f") 1 (lit "x") (lit "ToDo")).file_path ∧
    (TodoItem.mk (lit "f") 1 (lit "x") (lit "TODO")).line_number =
      (TodoItem.mk (lit "f") 1 (lit "x") (lit "ToDo")).line_number ∧
    (TodoItem.mk (lit "f") 1 (lit "x") (lit "TODO")).content =
      (TodoItem.mk (lit "f") 1 (lit "x") (lit "ToDo")).content ∧
    (generate_todo_hash (TodoItem.mk (lit "f") 1 (lit "x") (lit "TODO")) =
      generate_todo_hash (TodoItem.mk (lit "f") 1 (lit "x") (lit "ToDo")) ∧
    generate_todo_hash (TodoItem.mk (lit "f") 1 (lit "x") (lit "TODO")) =
      (sha256Hex (utf8Encode ((TodoItem.mk (lit "f") 1 (lit "x") (lit "TODO")).file_path ++
        lit ":" ++ natStr (TodoItem.mk (lit "f") 1 (lit "x") (lit "TODO")).line_number ++
        lit ":" ++ (TodoItem.mk (lit "f") 1 (lit "x") (lit "TODO")).content))).take 8) :=
  ⟨rfl, rfl, rfl,
    claim2_fingerprint_deterministic
      (TodoItem.mk (lit "f") 1 (lit "x") (lit "TODO"))
      (TodoItem.mk (lit "f") 1 (lit "x") (lit "ToDo")) rfl rfl rfl⟩

/-! ## String machinery shared by the github-client model

Python's `in` (substring test), `str.split(sep)` for a one-character
separator, and `'\n'`-joining of an f-string's lines are modelled here,
with the lemmas needed to reason about occurrences of a pattern inside
concatenations. -/

/-- Model of python's substring test `pat in l`. -/
def containsSub (pat : PyStr) : PyStr → Bool
  | [] => pat.isEmpty
  | l@(_ :: rest) => pat.isPrefixOf l || containsSub pat rest

theorem containsSub_iff {pat l : PyStr} : containsSub pat l = true ↔ pat <:+: l := by
  induction l with
  | nil =>
    simp only [containsSub, List.isEmpty_iff]
    constructor
    · rintro rfl; exact List.infix_refl []
    · intro h; exact List.sublist_nil.mp h.sublist
  | cons c rest ih =>
    simp only [containsSub, Bool.or_eq_true, List.isPrefixOf_iff_prefix, ih,
      List.infix_cons_iff]

/-- Model of python `str.split(sep)` for a one-character separator. -/
def pySplit (c : Char) : PyStr → List PyStr
  | [] => [[]]
  | d :: rest =>
    let r := pySplit c rest
    if d = c then [] :: r
    else
      match r with
      | [] => [[d]]
      | h :: t => (d :: h) :: t

/-- Joining lines with a separator character, the shape of the
multi-line f-string in `_create_issue_body`. -/
def pyJoin (c : Char) : List PyStr → PyStr
  | [] => []
  | [l] => l
  | l :: l2 :: ls => l ++ c :: pyJoin c (l2 :: ls)

theorem pySplit_ne_nil (c : Char) (l : PyStr) : pySplit c l ≠ [] := by
  induction l with
  | nil => simp [pySplit]
  | cons d rest ih =>
    simp only [pySplit]
    split
    · simp
    · split
      · simp
      · simp

theorem pySplit_no_sep {c : Char} {l : PyStr} (h : c ∉ l) : pySplit c l = [l] := by
  induction l with
  | nil => rfl
  | cons d rest ih =>
    simp only [List.mem_cons, not_or] at h
    have hdc : ¬ d = c := fun he => h.1 he.symm
    simp only [pySplit, ih h.2]
    rw [if_neg hdc]

theorem pySplit_sep_cons {c : Char} {a b : PyStr} (h : c ∉ a) :
    pySplit c (a ++ c :: b) = a :: pySplit c b := by
  induction a with
  | nil => simp [pySplit]
  | cons d rest ih =>
    simp only [List.mem_cons, not_or] at h
    have hdc : ¬ d = c := fun he => h.1 he.symm
    simp only [List.cons_append, pySplit, List.append_eq, ih h.2]
    rw [if_neg hdc]

theorem pySplit_pyJoin {c : Char} {L : List PyStr} (hL : ∀ l ∈ L, c ∉ l)
    (hne : L ≠ []) : pySplit c (pyJoin c L) = L := by
  induction L with
  | nil => exact absurd rfl hne
  | cons l ls ih =>
    cases ls with
    | nil =>
      simp only [pyJoin]
      exact pySplit_no_sep (hL l (by simp))
    | cons l2 ls2 =>
      simp only [pyJoin]
      rw [pySplit_sep_cons (hL l (by simp)),
        ih (fun x hx => hL x (List.mem_cons_of_mem l hx)) (by simp)]

theorem mem_pyJoin {c : Char} {L : List PyStr} {l : PyStr} (h : l ∈ L) :
    l <:+: pyJoin c L := by
  induction L with
  | nil => simp at h
  | cons a as ih =>
    rcases List.mem_cons.mp h with rfl | h2
    · cases as with
      | nil =>
        simp only [pyJoin]
        exact List.infix_refl l
      | cons b bs =>
        simp only [pyJoin]
        exact (List.prefix_append l (c :: pyJoin c (b :: bs))).isInfix
    · cases as with
      | nil => simp at h2
      | cons b bs =>
        have h3 := ih h2
        simp only [pyJoin] at h3 ⊢
        obtain ⟨s, t, hst⟩ := h3
        exact ⟨a ++ c :: s, t, by simp [← hst]⟩

/-- A prefix of a concatenation is a prefix of the left part, or extends
the whole left part into the right part. -/
theorem prefix_append_split {α : Type} {p a b : List α} (h : p <+: a ++ b) :
    p <+: a ∨ (a <+: p ∧ p.drop a.length <+: b) := by
  induction a generalizing p with
  | nil => exact Or.inr ⟨List.nil_prefix, by simpa using h⟩
  | cons c a' ih =>
    cases p with
    | nil => exact Or.inl List.nil_prefix
    | cons d p' =>
      rw [List.cons_append, List.cons_prefix_cons] at h
      obtain ⟨rfl, h'⟩ := h
      rcases ih h' with h1 | ⟨h2, h3⟩
      · exact Or.inl (List.cons_prefix_cons.mpr ⟨rfl, h1⟩)
      · exact Or.inr ⟨List.cons_prefix_cons.mpr ⟨rfl, h2⟩, by simpa using h3⟩

/-- An occurrence of `p` inside `a ++ b` lies in `a`, lies in `b`, or
straddles the boundary, splitting `p` into a nonempty suffix piece of `a`
and a nonempty prefix piece of `b`. -/
theorem infix_append_split {α : Type} {p a b : List α} (h : p <:+: a ++ b) :
    p <:+: a ∨ p <:+: b ∨
      ∃ k, 0 < k ∧ k < p.length ∧ p.take k <:+ a ∧ p.drop k <+: b := by
  induction a generalizing p with
  | nil => exact Or.inr (Or.inl (by simpa using h))
  | cons c a' ih =>
    rw [List.cons_append, List.infix_cons_iff] at h
    rcases h with hpre | hinf
    · rw [← List.cons_append] at hpre
      rcases prefix_append_split hpre with h1 | ⟨h2, h3⟩
      · exact Or.inl h1.isInfix
      · by_cases hlen : p.length ≤ (c :: a').length
        · have he : c :: a' = p := h2.eq_of_length_le hlen
          subst he
          exact Or.inl (List.infix_refl _)
        · refine Or.inr (Or.inr ⟨(c :: a').length, by simp, by omega, ?_, h3⟩)
          obtain ⟨t, rfl⟩ := h2
          rw [List.take_left]
    · rcases ih hinf with h1 | h1 | ⟨k, hk1, hk2, hk3, hk4⟩
      · exact Or.inl (List.infix_cons h1)
      · exact Or.inr (Or.inl h1)
      · exact Or.inr (Or.inr ⟨k, hk1, hk2, hk3.trans (List.suffix_cons c a'), hk4⟩)

theorem not_infix_append {α : Type} {p a b : List α} (ha : ¬ p <:+: a) (hb : ¬ p <:+: b)
    (hs : ∀ k, 0 < k → k < p.length → ¬ (p.take k <:+ a ∧ p.drop k <+: b)) :
    ¬ p <:+: a ++ b := by
  intro h
  rcases infix_append_split h with h1 | h1 | ⟨k, h1, h2, h3, h4⟩
  · exact ha h1
  · exact hb h1
  · exact hs k h1 h2 ⟨h3, h4⟩

theorem not_infix_of_not_mem {p l : List Char} (c : Char) (hc : c ∈ p) (hl : c ∉ l) :
    ¬ p <:+: l :=
  fun h => hl (h.sublist.subset hc)

/-! ## GitHub client model (`github_client.py`) -/

/-- The fixed textual tag `"TODO Hash:"` searched for in issue bodies. -/
def marker : PyStr := lit "TODO Hash:"

/-- The fixed tracking label `todo-tracker` (`self.todo_label`). -/
def todoLabel : PyStr := lit "todo-tracker"

theorem marker_length : marker.length = 10 := by decide

/-- No nonempty split of the marker straddles the boundary of `a ++ b`. -/
def NoStraddle (a b : PyStr) : Prop :=
  ∀ k, 0 < k → k < marker.length → ¬ (marker.take k <:+ a ∧ marker.drop k <+: b)

theorem noStraddle_left {a : PyStr} (b : PyStr)
    (h : ∀ j, j < 9 → ¬ marker.take (j + 1) <:+ a) : NoStraddle a b := by
  intro k hk0 hk1 hc
  rw [marker_length] at hk1
  have h2 := h (k - 1) (by omega)
  rw [Nat.sub_add_cancel hk0] at h2
  exact h2 hc.1

theorem noStraddle_right (a : PyStr) {b : PyStr}
    (h : ∀ j, j < 9 → ¬ marker.drop (j + 1) <+: b) : NoStraddle a b := by
  intro k hk0 hk1 hc
  rw [marker_length] at hk1
  have h2 := h (k - 1) (by omega)
  rw [Nat.sub_add_cancel hk0] at h2
  exact h2 hc.2

theorem noStraddle_head_ne (a : PyStr) {b : PyStr} (c : Char) (hb : b.head? = some c)
    (hc : ∀ j, j < 9 → ¬ (marker.drop (j + 1)).head? = some c) : NoStraddle a b := by
  intro k hk0 hk1 hp
  rw [marker_length] at hk1
  have h2 := hc (k - 1) (by omega)
  rw [Nat.sub_add_cancel hk0] at h2
  apply h2
  obtain ⟨t, ht⟩ := hp.2
  cases hm : marker.drop k with
  | nil =>
    have hlen := congrArg List.length hm
    simp only [List.length_drop, marker_length, List.length_nil] at hlen
    omega
  | cons d ds =>
    rw [hm] at ht
    have hd : b.head? = some d := by rw [← ht]; rfl
    have hcd : c = d := Option.some.inj (hb.symm.trans hd)
    rw [hcd]
    rfl

/-! Digit facts about `natStr`. -/

theorem natStrGo_mem {f n : Nat} {acc : PyStr} {c : Char} (h : c ∈ natStrGo f n acc) :
    (48 ≤ c.toNat ∧ c.toNat ≤ 57) ∨ c ∈ acc := by
  induction f generalizing n acc with
  | zero => exact Or.inr h
  | succ f ih =>
    have hd : ∀ m : Nat, 48 ≤ (Char.ofNat (48 + m % 10)).toNat ∧
        (Char.ofNat (48 + m % 10)).toNat ≤ 57 := by
      intro m
      have h10 : m % 10 < 10 := Nat.mod_lt _ (by omega)
      have hall : ∀ d, d < 10 →
          48 ≤ (Char.ofNat (48 + d)).toNat ∧ (Char.ofNat (48 + d)).toNat ≤ 57 := by decide
      exact hall _ h10
    simp only [natStrGo] at h
    split at h
    · rcases List.mem_cons.mp h with rfl | h2
      · exact Or.inl (hd n)
      · exact Or.inr h2
    · rcases ih h with h1 | h2
      · exact Or.inl h1
      · rcases List.mem_cons.mp h2 with rfl | h3
        · exact Or.inl (hd n)
        · exact Or.inr h3

theorem natStr_digit {n : Nat} {c : Char} (h : c ∈ natStr n) :
    48 ≤ c.toNat ∧ c.toNat ≤ 57 := by
  rcases natStrGo_mem h with h1 | h1
  · exact h1
  · simp at h1

theorem natStr_no_nl (n : Nat) : nlChar ∉ natStr n := by
  intro h
  have h2 := natStr_digit h
  have h3 : nlChar.toNat = 10 := by decide
  omega

theorem natStr_no_T (n : Nat) : 'T' ∉ natStr n := by
  intro h
  have h2 := natStr_digit h
  have h3 : ('T').toNat = 84 := by decide
  omega

/-- Model of a GitHub issue as the client reads and writes it: number,
title, body, state (`"open"` or `"closed"`) and labels. -/
structure Issue where
  number : Nat
  title : PyStr
  body : PyStr
  state : PyStr
  labels : List PyStr
deriving DecidableEq

/-- Repository attributes read by `_create_issue_body`, plus the
filesystem-dependent relative-path resolution it performs for absolute
paths (walking up from the file looking for a `.git` directory):
`link_path t` is the path placed in the location link; for a relative
`file_path` the loop does not run and it is `file_path` itself. -/
structure RepoEnv where
  html_url : PyStr
  default_branch : PyStr
  link_path : TodoItem → PyStr

/-- Model of `_create_issue_title`:
`f"TODO: {content[:50]}{'...' if len(content) > 50 else ''} ({file_name}:{line})"`
with `file_name = file_path.split('/')[-1]`. -/
def create_issue_title (t : TodoItem) : PyStr :=
  lit "TODO: " ++ t.content.take 50 ++
    (if 50 < t.content.length then lit "..." else []) ++
    lit " (" ++ (pySplit '/' t.file_path).getLastD [] ++ lit ":" ++
    natStr t.line_number ++ lit ")"

/-- The lines of the body f-string of `_create_issue_body`, in order
(the final empty line comes from the newline before the closing quotes). -/
def bodyLines (env : RepoEnv) (t : TodoItem) (todo_hash : PyStr) : List PyStr :=
  [lit "## TODO Found in Code",
   [],
   lit "**File:** `" ++ (t.file_path ++ lit "`  "),
   lit "**Line:** " ++ (natStr t.line_number ++ lit "  "),
   lit "**Type:** `" ++ (t.todo_type ++ lit "`  "),
   [],
   lit "### Content",
   lit "```",
   t.content,
   lit "```",
   [],
   lit "### Location",
   lit "[View in repository](" ++ (env.html_url ++ (lit "/blob/" ++
     (env.default_branch ++ (lit "/" ++ (env.link_path t ++
       (lit "#L" ++ (natStr t.line_number ++ lit ")"))))))),
   [],
   lit "---",
   lit "*This issue was automatically created by the TODO Tracker.*  ",
   lit "*TODO Hash: `" ++ (todo_hash ++ lit "`*"),
   []]

/-- Model of `_create_issue_body`: the f-string is its lines joined by
newlines. -/
def create_issue_body (env : RepoEnv) (t : TodoItem) (todo_hash : PyStr) : PyStr :=
  pyJoin nlChar (bodyLines env t todo_hash)

/-- Python-dict model: association list with insertion order, overwrite
keeps the original position (python `dict` semantics). -/
abbrev HashDict := List (PyStr × Issue)

def dictContains (m : HashDict) (k : PyStr) : Bool := m.any (fun p => p.1 == k)

def dictInsert (m : HashDict) (k : PyStr) (v : Issue) : HashDict :=
  if dictContains m k then m.map (fun p => if p.1 == k then (k, v) else p)
  else m ++ [(k, v)]

/-- The body of the issue loop in `_get_existing_todo_issues`: when the
marker occurs in the body, take the first line containing it and the
second backtick-separated field of that line.  `Except.error` models the
`IndexError` that python's `split('`')[1]` raises when the line has no
backtick (it is not a `GithubException`, so it propagates). -/
def hashFromLine (l : PyStr) : Except Unit (Option PyStr) :=
  match (pySplit btChar l).get? 1 with
  | none => Except.error ()
  | some h => Except.ok (some h)

/-- The per-issue step of `_get_existing_todo_issues`: when the marker
occurs in the body, split into lines, keep the lines containing the
marker, and read the hash out of the first one. -/
def extract_todo_hash (body : PyStr) : Except Unit (Option PyStr) :=
  if containsSub marker body then
    match (pySplit nlChar body).filter (fun l => containsSub marker l) with
    | [] => Except.ok none
    | l :: _ => hashFromLine l
  else Except.ok none

def getExistingGo : List Issue → HashDict → Except Unit HashDict
  | [], m => Except.ok m
  | i :: is, m =>
    match extract_todo_hash i.body with
    | Except.error e => Except.error e
    | Except.ok none => getExistingGo is m
    | Except.ok (some h) => getExistingGo is (dictInsert m h i)

/-- Model of `_get_existing_todo_issues`.  `listFails = true` models
`repo.get_issues` raising a `GithubException`: the handler logs a warning
and the empty mapping is returned.  The `labels=[self.todo_label]` filter
is the label filter; `state="all"` means no state filter. -/
def get_existing_todo_issues (listFails : Bool) (repoIssues : List Issue) :
    Except Unit HashDict :=
  if listFails then Except.ok []
  else getExistingGo (repoIssues.filter (fun i => i.labels.contains todoLabel)) []

/-- Result of `create_issues_for_todos`: the returned pair
`(created, skipped)`, plus the repository state after the calls, the
next issue number the tracker will assign, and the number of calls made
to the mutating `repo.create_issue` capability. -/
structure CreateOutcome where
  created : List Issue
  skipped : List PyStr
  repoAfter : List Issue
  nextNum : Nat
  createCalls : Nat
deriving DecidableEq

/-- The issue `repo.create_issue(title=..., body=..., labels=[todo_label])`
returns: open, labelled, numbered by the tracker. -/
def mkIssue (env : RepoEnv) (num : Nat) (t : TodoItem) (h : PyStr) : Issue :=
  { number := num, title := create_issue_title t,
    body := create_issue_body env t h, state := lit "open", labels := [todoLabel] }

/-- The `for todo in todos` loop of `create_issues_for_todos`: skip when
the fingerprint is already tracked, format title and body, in dry-run
continue without creating, otherwise create the issue.  Creation is
modelled as succeeding (the per-call `GithubException` handler merely
logs and skips, and no claim concerns it). -/
def createLoop (env : RepoEnv) (existing : HashDict) (dry_run : Bool) :
    List TodoItem → CreateOutcome → CreateOutcome
  | [], st => st
  | t :: ts, st =>
    let h := generate_todo_hash t
    if dictContains existing h then
      createLoop env existing dry_run ts { st with skipped := st.skipped ++ [h] }
    else if dry_run then
      createLoop env existing dry_run ts st
    else
      let issue := mkIssue env st.nextNum t h
      createLoop env existing dry_run ts
        { created := st.created ++ [issue], skipped := st.skipped,
          repoAfter := st.repoAfter ++ [issue], nextNum := st.nextNum + 1,
          createCalls := st.createCalls + 1 }

/-- Model of `create_issues_for_todos`: fetch the tracked mapping once,
then run the loop.  An `IndexError` inside the fetch propagates. -/
def create_issues_for_todos (env : RepoEnv) (listFails : Bool) (repoIssues : List Issue)
    (nextNum : Nat) (todos : List TodoItem) (dry_run : Bool) :
    Except Unit CreateOutcome :=
  (get_existing_todo_issues listFails repoIssues).map (fun existing =>
    createLoop env existing dry_run todos
      { created := [], skipped := [], repoAfter := repoIssues,
        nextNum := nextNum, createCalls := 0 })

/-- Model of `close_resolved_todos`: iterate the tracked mapping in
insertion order; an entry whose issue is open and whose fingerprint is
not among the current fingerprints is edited to closed and collected.
The set comprehension over current hashes is membership in the hash
list; edit and comment are modelled as succeeding, so the returned list
is exactly the issues edited. -/
def close_resolved_todos (listFails : Bool) (repoIssues : List Issue)
    (current_todos : List TodoItem) : Except Unit (List Issue) :=
  (get_existing_todo_issues listFails repoIssues).map (fun existing =>
    let current_hashes := current_todos.map generate_todo_hash
    existing.foldl (fun closed p =>
      if p.2.state == lit "open" && !(current_hashes.contains p.1)
      then closed ++ [p.2] else closed) [])

/-! ## Round-tripping the fingerprint through the issue body -/

/-- A string is clean when it contains no newline and no occurrence of
the `"TODO Hash:"` marker. -/
abbrev CleanStr (l : PyStr) : Prop := nlChar ∉ l ∧ ¬ marker <:+: l

/-- Cleanliness of the strings of an item that enter the issue body. -/
abbrev CleanItem (env : RepoEnv) (t : TodoItem) : Prop :=
  CleanStr t.file_path ∧ CleanStr t.content ∧ CleanStr t.todo_type ∧
    CleanStr (env.link_path t)

/-- Cleanliness of the repository attributes that enter the issue body. -/
abbrev CleanEnv (env : RepoEnv) : Prop :=
  CleanStr env.html_url ∧ CleanStr env.default_branch

theorem containsSub_false {pat l : PyStr} (h : ¬ pat <:+: l) :
    containsSub pat l = false := by
  cases hcs : containsSub pat l with
  | false => rfl
  | true => exact absurd (containsSub_iff.mp hcs) h

/-- The marker cannot occur in a line of the shape `constA ++ P ++ constB`
when it occurs in none of the three parts and cannot straddle the
boundaries. -/
theorem line_wrap_clean {P : PyStr} (constA constB : PyStr) (hP : ¬ marker <:+: P)
    (h1 : ¬ marker <:+: constA) (h2 : ¬ marker <:+: constB)
    (h3 : ∀ j, j < 9 → ¬ marker.take (j + 1) <:+ constA)
    (h4 : ∀ j, j < 9 → ¬ marker.drop (j + 1) <+: constB) :
    ¬ marker <:+: constA ++ (P ++ constB) :=
  not_infix_append h1 (not_infix_append hP h2 (noStraddle_right _ h4))
    (noStraddle_left _ h3)

/-- The `**Line:**` body line holds only digits besides its constants,
and the marker contains `T`, which is not a digit. -/
theorem line_number_clean (n : Nat) :
    ¬ marker <:+: lit "**Line:** " ++ (natStr n ++ lit "  ") :=
  not_infix_of_not_mem 'T' (by decide) (by
    intro hm
    rcases List.mem_append.mp hm with h | h
    · revert h; decide
    · rcases List.mem_append.mp h with h | h
      · exact natStr_no_T n h
      · revert h; decide)

/-- The location-link body line cannot contain the marker when the url,
branch and link path do not contain it. -/
theorem location_line_clean {U B L : PyStr} (n : Nat)
    (hU : ¬ marker <:+: U) (hB : ¬ marker <:+: B) (hL : ¬ marker <:+: L) :
    ¬ marker <:+: lit "[View in repository](" ++ (U ++ (lit "/blob/" ++
      (B ++ (lit "/" ++ (L ++ (lit "#L" ++ (natStr n ++ lit ")"))))))) := by
  have h8 : ¬ marker <:+: natStr n ++ lit ")" :=
    not_infix_of_not_mem 'T' (by decide) (by
      intro hm
      rcases List.mem_append.mp hm with h | h
      · exact natStr_no_T n h
      · revert h; decide)
  have h7 : ¬ marker <:+: lit "#L" ++ (natStr n ++ lit ")") :=
    not_infix_append (by decide) h8 (noStraddle_left _ (by decide))
  have h6 : ¬ marker <:+: L ++ (lit "#L" ++ (natStr n ++ lit ")")) :=
    not_infix_append hL h7 (noStraddle_head_ne _ '#' rfl (by decide))
  have h5 : ¬ marker <:+: lit "/" ++ (L ++ (lit "#L" ++ (natStr n ++ lit ")"))) :=
    not_infix_append (by decide) h6 (noStraddle_left _ (by decide))
  have h4 : ¬ marker <:+: B ++ (lit "/" ++ (L ++ (lit "#L" ++ (natStr n ++ lit ")")))) :=
    not_infix_append hB h5 (noStraddle_head_ne _ '/' rfl (by decide))
  have h3 : ¬ marker <:+: lit "/blob/" ++
      (B ++ (lit "/" ++ (L ++ (lit "#L" ++ (natStr n ++ lit ")"))))) :=
    not_infix_append (by decide) h4 (noStraddle_left _ (by decide))
  have h2 : ¬ marker <:+: U ++ (lit "/blob/" ++
      (B ++ (lit "/" ++ (L ++ (lit "#L" ++ (natStr n ++ lit ")")))))) :=
    not_infix_append hU h3 (noStraddle_head_ne _ '/' rfl (by decide))
  exact not_infix_append (by decide) h2 (noStraddle_left _ (by decide))

/-- None of the first 16 body lines contains the marker for a clean item
in a clean environment: only the trailing hash line does. -/
theorem bodyLines_front_clean (env : RepoEnv) (t : TodoItem) (hsh : PyStr)
    (henv : CleanEnv env) (hit : CleanItem env t) :
    ∀ l ∈ (bodyLines env t hsh).take 16, ¬ marker <:+: l := by
  obtain ⟨⟨hU1, hU2⟩, hB1, hB2⟩ := henv
  obtain ⟨⟨hP1, hP2⟩, ⟨hC1, hC2⟩, ⟨hY1, hY2⟩, hL1, hL2⟩ := hit
  intro l hl
  simp only [bodyLines, List.take_succ_cons, List.take_zero, List.mem_cons,
    List.not_mem_nil, or_false] at hl
  rcases hl with rfl | rfl | rfl | rfl | rfl | rfl | rfl | rfl | rfl | rfl |
    rfl | rfl | rfl | rfl | rfl | rfl
  · decide
  · decide
  · exact line_wrap_clean _ _ hP2 (by decide) (by decide) (by decide) (by decide)
  · exact line_number_clean _
  · exact line_wrap_clean _ _ hY2 (by decide) (by decide) (by decide) (by decide)
  · decide
  · decide
  · decide
  · exact hC2
  · decide
  · decide
  · decide
  · exact location_line_clean _ hU2 hB2 hL2
  · decide
  · decide
  · decide

/-- No body line contains a newline for a clean item in a clean
environment with a newline-free hash, so splitting the body on newlines
recovers exactly the lines. -/
theorem bodyLines_no_nl (env : RepoEnv) (t : TodoItem) (hsh : PyStr)
    (henv : CleanEnv env) (hit : CleanItem env t) (hh : nlChar ∉ hsh) :
    ∀ l ∈ bodyLines env t hsh, nlChar ∉ l := by
  obtain ⟨⟨hU1, hU2⟩, hB1, hB2⟩ := henv
  obtain ⟨⟨hP1, hP2⟩, ⟨hC1, hC2⟩, ⟨hY1, hY2⟩, hL1, hL2⟩ := hit
  intro l hl
  simp only [bodyLines, List.mem_cons, List.not_mem_nil, or_false] at hl
  rcases hl with rfl | rfl | rfl | rfl | rfl | rfl | rfl | rfl | rfl | rfl |
    rfl | rfl | rfl | rfl | rfl | rfl | rfl | rfl
  · decide
  · decide
  · intro hm
    rcases List.mem_append.mp hm with h | h
    · revert h; decide
    · rcases List.mem_append.mp h with h | h
      · exact hP1 h
      · revert h; decide
  · intro hm
    rcases List.mem_append.mp hm with h | h
    · revert h; decide
    · rcases List.mem_append.mp h with h | h
      · exact natStr_no_nl _ h
      · revert h; decide
  · intro hm
    rcases List.mem_append.mp hm with h | h
    · revert h; decide
    · rcases List.mem_append.mp h with h | h
      · exact hY1 h
      · revert h; decide
  · decide
  · decide
  · decide
  · exact hC1
  · decide
  · decide
  · decide
  · intro hm
    simp only [List.mem_append] at hm
    rcases hm with h | h | h | h | h | h | h | h | h
    · revert h; decide
    · exact hU1 h
    · revert h; decide
    · exact hB1 h
    · revert h; decide
    · exact hL1 h
    · revert h; decide
    · exact natStr_no_nl _ h
    · revert h; decide
  · decide
  · decide
  · decide
  · intro hm
    rcases List.mem_append.mp hm with h | h
    · revert h; decide
    · rcases List.mem_append.mp h with h | h
      · exact hh h
      · revert h; decide
  · decide

theorem filter_single_true {p : PyStr → Bool} {L1 : List PyStr} {x : PyStr}
    {L2 : List PyStr} (h1 : ∀ l ∈ L1, p l = false) (hx : p x = true)
    (h2 : ∀ l ∈ L2, p l = false) : (L1 ++ x :: L2).filter p = [x] := by
  induction L1 with
  | nil =>
    simp only [List.nil_append, List.filter_cons, hx, if_true]
    have : L2.filter p = [] := List.filter_eq_nil_iff.mpr (fun a ha => by simp [h2 a ha])
    simp [this]
  | cons a as ih =>
    simp only [List.cons_append, List.filter_cons, h1 a (by simp)]
    exact ih (fun l hl => h1 l (List.mem_cons_of_mem a hl))

/-- The hash line of the body splits on backticks into exactly three
fields, the second being the hash. -/
theorem pySplit_hash_line {hsh : PyStr} (hbt : btChar ∉ hsh) :
    pySplit btChar (lit "*TODO Hash: `" ++ (hsh ++ lit "`*")) =
      [lit "*TODO Hash: ", hsh, lit "*"] := by
  have e : lit "*TODO Hash: `" ++ (hsh ++ lit "`*") =
      lit "*TODO Hash: " ++ btChar :: (hsh ++ btChar :: lit "*") := rfl
  rw [e, pySplit_sep_cons (by decide), pySplit_sep_cons hbt,
    pySplit_no_sep (by decide)]

/-- Fingerprint extraction applied to a freshly created issue body
recovers exactly the hash that was embedded, for a clean item, clean
environment and a hash with no newline and no backtick. -/
theorem extract_todo_hash_body (env : RepoEnv) (t : TodoItem) (hsh : PyStr)
    (henv : CleanEnv env) (hit : CleanItem env t)
    (hnl : nlChar ∉ hsh) (hbt : btChar ∉ hsh) :
    extract_todo_hash (create_issue_body env t hsh) = Except.ok (some hsh) := by
  have h17 : (lit "*TODO Hash: `" ++ (hsh ++ lit "`*")) ∈ bodyLines env t hsh := by
    simp [bodyLines]
  have hmem : marker <:+: create_issue_body env t hsh := by
    have hin : marker <:+: lit "*TODO Hash: `" ++ (hsh ++ lit "`*") :=
      (by decide : marker <:+: lit "*TODO Hash: `").trans
        (List.prefix_append _ _).isInfix
    exact hin.trans (@mem_pyJoin nlChar _ _ h17)
  have hcond : containsSub marker (create_issue_body env t hsh) = true :=
    containsSub_iff.mpr hmem
  have hbody : pySplit nlChar (create_issue_body env t hsh) = bodyLines env t hsh :=
    pySplit_pyJoin (bodyLines_no_nl env t hsh henv hit hnl) (by simp [bodyLines])
  have hfil : (bodyLines env t hsh).filter (fun l => containsSub marker l) =
      [lit "*TODO Hash: `" ++ (hsh ++ lit "`*")] := by
    have hfront := bodyLines_front_clean env t hsh henv hit
    have hsplit : bodyLines env t hsh =
        (bodyLines env t hsh).take 16 ++
          ((lit "*TODO Hash: `" ++ (hsh ++ lit "`*")) :: [([] : PyStr)]) := rfl
    rw [hsplit]
    refine filter_single_true ?_ ?_ ?_
    · exact fun l hl => containsSub_false (hfront l hl)
    · exact containsSub_iff.mpr ((by decide : marker <:+: lit "*TODO Hash: `").trans
        (List.prefix_append _ _).isInfix)
    · intro l hl
      simp only [List.mem_singleton] at hl
      subst hl
      decide
  have hline : hashFromLine (lit "*TODO Hash: `" ++ (hsh ++ lit "`*")) =
      Except.ok (some hsh) := by
    unfold hashFromLine
    rw [pySplit_hash_line hbt]
    rfl
  unfold extract_todo_hash
  rw [if_pos hcond, hbody, hfil]
  exact hline

/-! ## Claim C3: the wire format round-trips the fingerprint -/

/-- A sample repository environment for concrete evaluations. -/
def envEx : RepoEnv :=
  { html_url := lit "https://github.com/o/r", default_branch := lit "main",
    link_path := fun t => t.file_path }

/-- An item whose content itself contains the hash-marker text, as the
scanner would produce from the line `# TODO see TODO Hash: `y` here`. -/
def itemEx : TodoItem :=
  { file_path := lit "a.py", line_number := 3,
    content := lit "see TODO Hash: `y` here", todo_type := lit "TODO" }

/-- Counterexample to C3 as stated: for an item whose content contains
the text `TODO Hash:` followed by a backticked field, the extraction
step finds that earlier line first and returns its backticked field
instead of the embedded 8-hex hash `deadbeef`. -/
theorem claim3_counterexample :
    extract_todo_hash (create_issue_body envEx itemEx (lit "deadbeef")) =
        Except.ok (some (lit "y")) ∧
      (lit "y" ≠ lit "deadbeef") ∧
      (∀ c ∈ lit "deadbeef", c ∈ hexChars) ∧ (lit "deadbeef").length = 8 := by
  refine ⟨by decide, by decide, by decide, by decide⟩

/-- C3 (amended): for every TodoItem whose `file_path`, `content`,
`todo_type` and resolved link path — and the repository url and branch —
contain no newline and no occurrence of the text `TODO Hash:`, and every
8-hex-character hash, applying the fingerprint-extraction step to the
body produced by `_create_issue_body` yields exactly that hash. -/
theorem claim3_body_roundtrip (env : RepoEnv) (t : TodoItem) (hsh : PyStr)
    (henv : CleanEnv env) (hit : CleanItem env t)
    (hlen : hsh.length = 8) (hhex : ∀ c ∈ hsh, c ∈ hexChars) :
    extract_todo_hash (create_issue_body env t hsh) = Except.ok (some hsh) :=
  extract_todo_hash_body env t hsh henv hit
    (fun h => by have h2 := hhex _ h; revert h2; decide)
    (fun h => by have h2 := hhex _ h; revert h2; decide)

/-- A clean sample item. -/
def itemW : TodoItem :=
  { file_path := lit "f", line_number := 1, content := lit "x",
    todo_type := lit "TODO" }

/-- Witness for the amended C3 at concrete clean inputs. -/
theorem claim3_witness :
    CleanEnv envEx ∧ CleanItem envEx itemW ∧ (lit "01234567").length = 8 ∧
      (∀ c ∈ lit "01234567", c ∈ hexChars) ∧
      extract_todo_hash (create_issue_body envEx itemW (lit "01234567")) =
        Except.ok (some (lit "01234567")) :=
  ⟨by decide, by decide, by decide, by decide,
    claim3_body_roundtrip envEx itemW (lit "01234567")
      (by decide) (by decide) (by decide) (by decide)⟩

/-! ## Dictionary lemmas -/

theorem dictContains_mono {m : HashDict} {k k' : PyStr} {v : Issue}
    (h : dictContains m k' = true) : dictContains (dictInsert m k v) k' = true := by
  unfold dictInsert
  split
  · unfold dictContains at h ⊢
    rw [List.any_map]
    rw [List.any_eq_true] at h ⊢
    obtain ⟨p, hp, hpk⟩ := h
    refine ⟨p, hp, ?_⟩
    simp only [Function.comp_apply]
    by_cases hpk2 : p.1 == k
    · simp only [hpk2, if_true]
      rw [beq_iff_eq] at hpk hpk2
      rw [← hpk2, hpk]
      simp
    · simp only [hpk2]
      simpa using hpk
  · unfold dictContains at h ⊢
    rw [List.any_eq_true] at h ⊢
    obtain ⟨p, hp, hpk⟩ := h
    exact ⟨p, List.mem_append_left _ hp, hpk⟩

theorem dictContains_insert_self (m : HashDict) (k : PyStr) (v : Issue) :
    dictContains (dictInsert m k v) k = true := by
  unfold dictInsert
  split
  case isTrue h =>
    unfold dictContains at h ⊢
    rw [List.any_map]
    rw [List.any_eq_true] at h ⊢
    obtain ⟨p, hp, hpk⟩ := h
    exact ⟨p, hp, by simp [Function.comp, hpk]⟩
  case isFalse h =>
    unfold dictContains
    rw [List.any_eq_true]
    exact ⟨(k, v), List.mem_append_right _ (by simp), by simp⟩

/-! ## Creation-loop lemmas -/

/-- The issues a live (non-dry) run creates: one per occurrence whose
fingerprint is not in the tracked mapping, numbered consecutively. -/
def newIssues (env : RepoEnv) (existing : HashDict) : List TodoItem → Nat → List Issue
  | [], _ => []
  | t :: ts, n =>
    let h := generate_todo_hash t
    if dictContains existing h then newIssues env existing ts n
    else mkIssue env n t h :: newIssues env existing ts (n + 1)

/-- The fingerprints the run skips: those of the occurrences already in
the tracked mapping, in input order. -/
def trackedHashes (existing : HashDict) (todos : List TodoItem) : List PyStr :=
  (todos.filter (fun t => dictContains existing (generate_todo_hash t))).map
    generate_todo_hash

theorem createLoop_wet (env : RepoEnv) (existing : HashDict) (todos : List TodoItem) :
    ∀ st, createLoop env existing false todos st =
      { created := st.created ++ newIssues env existing todos st.nextNum,
        skipped := st.skipped ++ trackedHashes existing todos,
        repoAfter := st.repoAfter ++ newIssues env existing todos st.nextNum,
        nextNum := st.nextNum + (newIssues env existing todos st.nextNum).length,
        createCalls :=
          st.createCalls + (newIssues env existing todos st.nextNum).length } := by
  induction todos with
  | nil =>
    intro st
    simp [createLoop, newIssues, trackedHashes]
  | cons t ts ih =>
    intro st
    by_cases hd : dictContains existing (generate_todo_hash t)
    · rw [show createLoop env existing false (t :: ts) st =
        createLoop env existing false ts
          { st with skipped := st.skipped ++ [generate_todo_hash t] } by
          simp [createLoop, hd]]
      rw [ih]
      simp [newIssues, trackedHashes, hd, List.filter_cons, List.append_assoc]
    · rw [show createLoop env existing false (t :: ts) st =
        createLoop env existing false ts
          { created := st.created ++ [mkIssue env st.nextNum t (generate_todo_hash t)],
            skipped := st.skipped,
            repoAfter := st.repoAfter ++ [mkIssue env st.nextNum t (generate_todo_hash t)],
            nextNum := st.nextNum + 1, createCalls := st.createCalls + 1 } by
          simp [createLoop, hd]]
      rw [ih]
      simp only [newIssues, trackedHashes, hd, List.filter_cons, Bool.false_eq_true,
        if_false, List.append_assoc, List.singleton_append, List.length_cons,
        CreateOutcome.mk.injEq]
      and_intros <;> first | trivial | omega

theorem createLoop_dry (env : RepoEnv) (existing : HashDict) (todos : List TodoItem) :
    ∀ st, createLoop env existing true todos st =
      { st with skipped := st.skipped ++ trackedHashes existing todos } := by
  induction todos with
  | nil =>
    intro st
    simp [createLoop, trackedHashes]
  | cons t ts ih =>
    intro st
    by_cases hd : dictContains existing (generate_todo_hash t)
    · rw [show createLoop env existing true (t :: ts) st =
        createLoop env existing true ts
          { st with skipped := st.skipped ++ [generate_todo_hash t] } by
          simp [createLoop, hd]]
      rw [ih]
      simp [trackedHashes, hd, List.filter_cons, List.append_assoc]
    · rw [show createLoop env existing true (t :: ts) st =
        createLoop env existing true ts st by simp [createLoop, hd]]
      rw [ih]
      simp [trackedHashes, hd, List.filter_cons]

/-! ## Lemmas about the tracked-issue mapping -/

theorem getExistingGo_append (A B : List Issue) (m : HashDict) :
    getExistingGo (A ++ B) m =
      match getExistingGo A m with
      | Except.error e => Except.error e
      | Except.ok m' => getExistingGo B m' := by
  induction A generalizing m with
  | nil => simp [getExistingGo]
  | cons i is ih =>
    simp only [List.cons_append, getExistingGo]
    cases extract_todo_hash i.body with
    | error e => rfl
    | ok o =>
      cases o with
      | none => exact ih m
      | some h => exact ih (dictInsert m h i)

/-! Hex facts about the generated fingerprint. -/

theorem hexDigit_mem (d : Nat) : hexDigit d ∈ hexChars := by
  have h16 : d % 16 < 16 := Nat.mod_lt _ (by omega)
  have hall : ∀ e, e < 16 → hexChars.getD e '0' ∈ hexChars := by decide
  exact hall _ h16

theorem wordHex_mem {w : Nat} {c : Char} (h : c ∈ wordHex w) : c ∈ hexChars := by
  simp only [wordHex, List.mem_cons, List.not_mem_nil, or_false] at h
  rcases h with rfl | rfl | rfl | rfl | rfl | rfl | rfl | rfl <;> exact hexDigit_mem _

theorem sha256Hex_mem {msg : List Nat} {c : Char} (h : c ∈ sha256Hex msg) :
    c ∈ hexChars := by
  simp only [sha256Hex, List.mem_flatten, List.mem_map] at h
  obtain ⟨l, ⟨w, hw, rfl⟩, hc⟩ := h
  exact wordHex_mem hc

theorem generate_todo_hash_hex {t : TodoItem} {c : Char}
    (h : c ∈ generate_todo_hash t) : c ∈ hexChars := by
  unfold generate_todo_hash at h
  exact sha256Hex_mem (List.take_subset _ _ h)

theorem hash_no_nl (t : TodoItem) : nlChar ∉ generate_todo_hash t := by
  intro h
  have h2 := generate_todo_hash_hex h
  revert h2
  decide

theorem hash_no_bt (t : TodoItem) : btChar ∉ generate_todo_hash t := by
  intro h
  have h2 := generate_todo_hash_hex h
  revert h2
  decide

/-! Lemmas about the issues a live run creates. -/

theorem newIssues_labels (env : RepoEnv) (ex : HashDict) :
    ∀ (todos : List TodoItem) (n : Nat) (i : Issue),
      i ∈ newIssues env ex todos n → i.labels = [todoLabel] := by
  intro todos
  induction todos with
  | nil =>
    intro n i h
    simp [newIssues] at h
  | cons t ts ih =>
    intro n i h
    by_cases hd : dictContains ex (generate_todo_hash t)
    · rw [show newIssues env ex (t :: ts) n = newIssues env ex ts n by
        simp [newIssues, hd]] at h
      exact ih n i h
    · rw [show newIssues env ex (t :: ts) n =
        mkIssue env n t (generate_todo_hash t) :: newIssues env ex ts (n + 1) by
        simp [newIssues, hd]] at h
      rcases List.mem_cons.mp h with rfl | h2
      · rfl
      · exact ih (n + 1) i h2

theorem filter_label_news (env : RepoEnv) (ex : HashDict) (todos : List TodoItem)
    (n : Nat) :
    (newIssues env ex todos n).filter (fun i => i.labels.contains todoLabel) =
      newIssues env ex todos n :=
  List.filter_eq_self.mpr (fun i hi => by
    rw [newIssues_labels env ex todos n i hi]; decide)

theorem newIssues_length (env : RepoEnv) (ex : HashDict) :
    ∀ (todos : List TodoItem) (n : Nat),
      (newIssues env ex todos n).length =
        (todos.filter (fun t => !(dictContains ex (generate_todo_hash t)))).length := by
  intro todos
  induction todos with
  | nil => intro n; simp [newIssues]
  | cons t ts ih =>
    intro n
    by_cases hd : dictContains ex (generate_todo_hash t)
    · rw [show newIssues env ex (t :: ts) n = newIssues env ex ts n by
        simp [newIssues, hd]]
      simp [List.filter_cons, hd, ih]
    · rw [show newIssues env ex (t :: ts) n =
        mkIssue env n t (generate_todo_hash t) :: newIssues env ex ts (n + 1) by
        simp [newIssues, hd]]
      have hdf : dictContains ex (generate_todo_hash t) = false := by simpa using hd
      simp [List.filter_cons, hdf, ih]

theorem newIssues_nil_of_all {env : RepoEnv} {ex : HashDict} {todos : List TodoItem}
    (h : ∀ t ∈ todos, dictContains ex (generate_todo_hash t) = true) :
    ∀ n, newIssues env ex todos n = [] := by
  induction todos with
  | nil => intro n; rfl
  | cons t ts ih =>
    intro n
    rw [show newIssues env ex (t :: ts) n = newIssues env ex ts n by
      simp [newIssues, h t (by simp)]]
    exact ih (fun t' ht' => h t' (List.mem_cons_of_mem t ht')) n

theorem trackedHashes_all {ex : HashDict} {todos : List TodoItem}
    (h : ∀ t ∈ todos, dictContains ex (generate_todo_hash t) = true) :
    trackedHashes ex todos = todos.map generate_todo_hash := by
  unfold trackedHashes
  rw [List.filter_eq_self.mpr h]

/-- Feeding the issues of a live run back through the mapping builder
succeeds (their bodies are well formed), preserves every key already in
the mapping, and adds the fingerprint of every occurrence that was
created. -/
theorem getExistingGo_news (env : RepoEnv) (henv : CleanEnv env) (ex : HashDict) :
    ∀ (todos : List TodoItem), (∀ t ∈ todos, CleanItem env t) →
      ∀ (n : Nat) (m : HashDict),
      ∃ m2, getExistingGo (newIssues env ex todos n) m = Except.ok m2 ∧
        (∀ k, dictContains m k = true → dictContains m2 k = true) ∧
        (∀ t ∈ todos, dictContains ex (generate_todo_hash t) = false →
          dictContains m2 (generate_todo_hash t) = true) := by
  intro todos
  induction todos with
  | nil =>
    intro _ n m
    exact ⟨m, rfl, fun k hk => hk, by simp⟩
  | cons t ts ih =>
    intro hcl n m
    have hclt : CleanItem env t := hcl t (by simp)
    have hclts : ∀ t' ∈ ts, CleanItem env t' :=
      fun t' ht' => hcl t' (List.mem_cons_of_mem t ht')
    by_cases hd : dictContains ex (generate_todo_hash t)
    · obtain ⟨m2, h1, h2, h3⟩ := ih hclts n m
      refine ⟨m2, ?_, h2, ?_⟩
      · rw [show newIssues env ex (t :: ts) n = newIssues env ex ts n by
          simp [newIssues, hd]]
        exact h1
      · intro t' ht' hfalse
        rcases List.mem_cons.mp ht' with rfl | ht2
        · rw [hd] at hfalse
          cases hfalse
        · exact h3 t' ht2 hfalse
    · have hdf : dictContains ex (generate_todo_hash t) = false := by simpa using hd
      obtain ⟨m2, h1, h2, h3⟩ := ih hclts (n + 1)
        (dictInsert m (generate_todo_hash t) (mkIssue env n t (generate_todo_hash t)))
      refine ⟨m2, ?_, ?_, ?_⟩
      · rw [show newIssues env ex (t :: ts) n =
          mkIssue env n t (generate_todo_hash t) :: newIssues env ex ts (n + 1) by
          simp [newIssues, hd]]
        have hb : extract_todo_hash (mkIssue env n t (generate_todo_hash t)).body =
            Except.ok (some (generate_todo_hash t)) :=
          extract_todo_hash_body env t _ henv hclt (hash_no_nl t) (hash_no_bt t)
        simp only [getExistingGo, hb]
        exact h1
      · intro k hk
        exact h2 k (dictContains_mono hk)
      · intro t' ht' hfalse
        rcases List.mem_cons.mp ht' with rfl | ht2
        · exact h2 _ (dictContains_insert_self m _ _)
        · exact h3 t' ht2 hfalse

/-- Characterization of one call of `create_issues_for_todos` when the
mapping fetch succeeds, for both dry and live runs. -/
theorem create_issues_spec (env : RepoEnv) (repoIssues : List Issue) (nextNum : Nat)
    (todos : List TodoItem) (dry_run : Bool) (m : HashDict)
    (hm : get_existing_todo_issues false repoIssues = Except.ok m) :
    create_issues_for_todos env false repoIssues nextNum todos dry_run =
      Except.ok (if dry_run then
        { created := [], skipped := trackedHashes m todos, repoAfter := repoIssues,
          nextNum := nextNum, createCalls := 0 }
      else
        { created := newIssues env m todos nextNum, skipped := trackedHashes m todos,
          repoAfter := repoIssues ++ newIssues env m todos nextNum,
          nextNum := nextNum + (newIssues env m todos nextNum).length,
          createCalls := (newIssues env m todos nextNum).length }) := by
  unfold create_issues_for_todos
  rw [hm]
  cases dry_run with
  | false =>
    simp only [Except.map, Bool.false_eq_true, if_false]
    rw [createLoop_wet]
    simp
  | true =>
    simp only [Except.map, if_true]
    rw [createLoop_dry]
    simp

/-! ## Claims C1, C4, C5, C9, C10 -/

/-- C5: dry-run mutates nothing.  With the tracked mapping fetched as
`m`, a dry run returns `created = []`, makes zero calls to the mutating
creation capability, leaves the repository unchanged, and its skipped
list has one entry per occurrence whose fingerprint is tracked (length
`M`).  All read and formatting steps still happen (the result depends on
the fetched mapping exactly as in a live run; title and body are
computed before the dry-run branch in the loop). -/
theorem claim5_dry_run (env : RepoEnv) (repoIssues : List Issue) (nextNum : Nat)
    (todos : List TodoItem) (m : HashDict)
    (hm : get_existing_todo_issues false repoIssues = Except.ok m) :
    ∃ out, create_issues_for_todos env false repoIssues nextNum todos true =
        Except.ok out ∧
      out.created = [] ∧ out.createCalls = 0 ∧ out.repoAfter = repoIssues ∧
      out.skipped.length =
        (todos.filter (fun t => dictContains m (generate_todo_hash t))).length := by
  refine ⟨_, create_issues_spec env repoIssues nextNum todos true m hm, rfl, rfl, rfl, ?_⟩
  simp [trackedHashes]

/-- C9: a tracker listing failure is recovered locally.  When the
listing capability raises, the mapping is empty, the pass returns a
result (does not abort), skips nothing, and a live run creates one issue
per occurrence. -/
theorem claim9_listing_failure (env : RepoEnv) (repoIssues : List Issue)
    (nextNum : Nat) (todos : List TodoItem) (dry_run : Bool) :
    get_existing_todo_issues true repoIssues = Except.ok [] ∧
    ∃ out, create_issues_for_todos env true repoIssues nextNum todos dry_run =
        Except.ok out ∧
      out.skipped = [] ∧
      out.created.length = (if dry_run then 0 else todos.length) ∧
      out.createCalls = (if dry_run then 0 else todos.length) := by
  have htr : trackedHashes [] todos = [] := by
    unfold trackedHashes
    rw [List.filter_eq_nil_iff.mpr (fun t _ => by simp [dictContains])]
    rfl
  have hlen : ∀ n, (newIssues env [] todos n).length = todos.length := by
    intro n
    rw [newIssues_length]
    have hfe : todos.filter
        (fun t => !(dictContains ([] : HashDict) (generate_todo_hash t))) = todos :=
      List.filter_eq_self.mpr (fun a _ => rfl)
    rw [hfe]
  refine ⟨rfl, createLoop env [] dry_run todos
    { created := [], skipped := [], repoAfter := repoIssues,
      nextNum := nextNum, createCalls := 0 }, rfl, ?_, ?_, ?_⟩
  · cases dry_run with
    | false => rw [createLoop_wet]; simp [htr]
    | true => rw [createLoop_dry]; simp [htr]
  · cases dry_run with
    | false => rw [createLoop_wet]; simp [hlen]
    | true => rw [createLoop_dry]; simp
  · cases dry_run with
    | false => rw [createLoop_wet]; simp [hlen]
    | true => rw [createLoop_dry]; simp

/-- C10: the creation phase never deduplicates within one batch: the
tracked mapping is computed once before the loop, so a live run issues
one creation call per occurrence whose fingerprint is not already
tracked, counted with multiplicity — two occurrences with the same
untracked fingerprint both get created. -/
theorem claim10_no_batch_dedup (env : RepoEnv) (repoIssues : List Issue)
    (nextNum : Nat) (todos : List TodoItem) (m : HashDict)
    (hm : get_existing_todo_issues false repoIssues = Except.ok m) :
    ∃ out, create_issues_for_todos env false repoIssues nextNum todos false =
        Except.ok out ∧
      out.createCalls =
        (todos.filter (fun t => !(dictContains m (generate_todo_hash t)))).length ∧
      out.created.length =
        (todos.filter (fun t => !(dictContains m (generate_todo_hash t)))).length := by
  refine ⟨_, create_issues_spec env repoIssues nextNum todos false m hm, ?_, ?_⟩
  · exact newIssues_length env m todos nextNum
  · exact newIssues_length env m todos nextNum

/-- Running the creation phase twice for the counterexample: the second
run's created-count and skipped list. -/
def runTwice (env : RepoEnv) (todos : List TodoItem) : Except Unit (Nat × List PyStr) :=
  match create_issues_for_todos env false [] 1 todos false with
  | Except.error e => Except.error e
  | Except.ok out1 =>
    match create_issues_for_todos env false out1.repoAfter out1.nextNum todos false with
    | Except.error e => Except.error e
    | Except.ok out2 => Except.ok (out2.created.length, out2.skipped)

/-- Counterexample to C1 as stated: for the occurrence `itemEx`, whose
content contains the text `TODO Hash:` with a backticked field, the
second run re-extracts the wrong fingerprint from the issue created by
the first run, skips nothing and creates a second issue. -/
theorem claim1_counterexample : runTwice envEx [itemEx] = Except.ok (1, []) := by
  decide

/-- C1 (amended): reconciliation is idempotent for occurrences whose
strings contain no newline and no occurrence of the text `TODO Hash:`
(and a likewise clean repository url, branch and link path): starting
from any tracker state whose listing succeeds, a second live run over
the same occurrences against the tracker state left by the first run
creates zero new issues and appends every occurrence's fingerprint to
the skipped list. -/
theorem claim1_idempotent (env : RepoEnv) (repoIssues : List Issue) (nextNum : Nat)
    (todos : List TodoItem) (m1 : HashDict)
    (henv : CleanEnv env) (hcl : ∀ t ∈ todos, CleanItem env t)
    (hm1 : get_existing_todo_issues false repoIssues = Except.ok m1) :
    ∃ out1 out2,
      create_issues_for_todos env false repoIssues nextNum todos false =
        Except.ok out1 ∧
      create_issues_for_todos env false out1.repoAfter out1.nextNum todos false =
        Except.ok out2 ∧
      out2.created = [] ∧ out2.createCalls = 0 ∧
      out2.skipped = todos.map generate_todo_hash := by
  have hout1 := create_issues_spec env repoIssues nextNum todos false m1 hm1
  obtain ⟨m2, hgo, hmono, hnew⟩ := getExistingGo_news env henv m1 todos hcl nextNum m1
  have hm2 : get_existing_todo_issues false
      (repoIssues ++ newIssues env m1 todos nextNum) = Except.ok m2 := by
    show getExistingGo ((repoIssues ++ newIssues env m1 todos nextNum).filter
      (fun i => i.labels.contains todoLabel)) [] = Except.ok m2
    have hm1' : getExistingGo (repoIssues.filter
        (fun i => i.labels.contains todoLabel)) [] = Except.ok m1 := hm1
    rw [List.filter_append, filter_label_news, getExistingGo_append, hm1']
    exact hgo
  have halltracked : ∀ t ∈ todos, dictContains m2 (generate_todo_hash t) = true := by
    intro t ht
    by_cases hd : dictContains m1 (generate_todo_hash t) = true
    · exact hmono _ hd
    · exact hnew t ht (by simpa using hd)
  have hout2 := create_issues_spec env (repoIssues ++ newIssues env m1 todos nextNum)
    (nextNum + (newIssues env m1 todos nextNum).length) todos false m2 hm2
  refine ⟨_, _, hout1, hout2, ?_, ?_, ?_⟩
  · exact newIssues_nil_of_all halltracked _
  · show (newIssues env m2 todos _).length = 0
    rw [newIssues_nil_of_all halltracked]
    rfl
  · exact trackedHashes_all halltracked

theorem foldl_close_filter (cur : List PyStr) (m : HashDict) : ∀ acc,
    m.foldl (fun closed p =>
      if p.2.state == lit "open" && !(cur.contains p.1) then closed ++ [p.2]
      else closed) acc
    = acc ++ (m.filter (fun p => p.2.state == lit "open" && !(cur.contains p.1))).map
        (fun p => p.2) := by
  induction m with
  | nil => intro acc; simp
  | cons p ps ih =>
    intro acc
    simp only [List.foldl_cons, List.filter_cons]
    by_cases hc : (p.2.state == lit "open" && !(cur.contains p.1)) = true
    · rw [if_pos hc, hc, ih]
      simp
    · have hcf : (p.2.state == lit "open" && !(cur.contains p.1)) = false := by
        simpa using hc
      rw [if_neg hc, hcf]
      simp only [Bool.false_eq_true, if_false]
      exact ih acc

/-- C4: `close_resolved_todos` closes exactly the stale open tracked
issues: with the tracked mapping fetched as `m`, the returned (and
edited) issues are exactly the values of the mapping entries whose issue
is open and whose fingerprint is not the fingerprint of any current
occurrence, in mapping order; every other entry — an open issue with a
matching fingerprint, or a closed issue — is not edited. -/
theorem claim4_close_resolved (repoIssues : List Issue) (current_todos : List TodoItem)
    (m : HashDict) (hm : get_existing_todo_issues false repoIssues = Except.ok m) :
    close_resolved_todos false repoIssues current_todos = Except.ok
      ((m.filter (fun p => p.2.state == lit "open" &&
          !((current_todos.map generate_todo_hash).contains p.1))).map
        (fun p => p.2)) := by
  unfold close_resolved_todos
  rw [hm]
  show Except.ok (m.foldl (fun closed p =>
      if p.2.state == lit "open" &&
        !((current_todos.map generate_todo_hash).contains p.1)
      then closed ++ [p.2] else closed) []) = _
  rw [foldl_close_filter]
  simp

/-! ## Witnesses at concrete inputs -/

/-- A tracked open issue whose embedded fingerprint matches `itemW`
(`sha256("f:1:x")` starts `279c8967`). -/
def issueW1 : Issue :=
  { number := 1, title := lit "t1", body := lit "*TODO Hash: `279c8967`*",
    state := lit "open", labels := [todoLabel] }

/-- A tracked open issue whose embedded fingerprint matches no current
occurrence. -/
def issueW2 : Issue :=
  { number := 2, title := lit "t2", body := lit "*TODO Hash: `deadbeef`*",
    state := lit "open", labels := [todoLabel] }

/-- A two-issue tracker state. -/
def repoW : List Issue := [issueW1, issueW2]

/-- The mapping `_get_existing_todo_issues` builds from `repoW`. -/
def mW : HashDict := [(lit "279c8967", issueW1), (lit "deadbeef", issueW2)]

/-- Witness for C1 at a concrete clean occurrence and empty tracker. -/
theorem claim1_witness :
    CleanEnv envEx ∧ (∀ t ∈ [itemW], CleanItem envEx t) ∧
    get_existing_todo_issues false [] = Except.ok [] ∧
    (∃ out1 out2,
      create_issues_for_todos envEx false [] 1 [itemW] false = Except.ok out1 ∧
      create_issues_for_todos envEx false out1.repoAfter out1.nextNum [itemW] false =
        Except.ok out2 ∧
      out2.created = [] ∧ out2.createCalls = 0 ∧
      out2.skipped = [itemW].map generate_todo_hash) :=
  ⟨by decide, by decide, by decide,
    claim1_idempotent envEx [] 1 [itemW] [] (by decide) (by decide) (by decide)⟩

/-- Witness for C4: of one matching and one stale tracked open issue,
exactly the stale one is closed and returned. -/
theorem claim4_witness :
    get_existing_todo_issues false repoW = Except.ok mW ∧
    close_resolved_todos false repoW [itemW] = Except.ok
      ((mW.filter (fun p => p.2.state == lit "open" &&
          !(([itemW].map generate_todo_hash).contains p.1))).map (fun p => p.2)) ∧
    ((mW.filter (fun p => p.2.state == lit "open" &&
        !(([itemW].map generate_todo_hash).contains p.1))).map (fun p => p.2)) =
      [issueW2] :=
  ⟨by decide, claim4_close_resolved repoW [itemW] mW (by decide), by decide⟩

/-- Witness for C5 at one already-tracked occurrence (`M = 1`). -/
theorem claim5_witness :
    ∃ out, create_issues_for_todos envEx false repoW 7 [itemW] true = Except.ok out ∧
      out.created = [] ∧ out.createCalls = 0 ∧ out.repoAfter = repoW ∧
      out.skipped.length =
        ([itemW].filter (fun t => dictContains mW (generate_todo_hash t))).length :=
  claim5_dry_run envEx repoW 7 [itemW] mW (by decide)

/-- Witness for C10: the same untracked occurrence twice in one batch
yields two creation calls. -/
theorem claim10_witness :
    (∃ out, create_issues_for_todos envEx false [] 1 [itemW, itemW] false =
        Except.ok out ∧
      out.createCalls = ([itemW, itemW].filter
        (fun t => !(dictContains ([] : HashDict) (generate_todo_hash t)))).length ∧
      out.created.length = ([itemW, itemW].filter
        (fun t => !(dictContains ([] : HashDict) (generate_todo_hash t)))).length) ∧
    ([itemW, itemW].filter
      (fun t => !(dictContains ([] : HashDict) (generate_todo_hash t)))).length = 2 :=
  ⟨claim10_no_batch_dedup envEx [] 1 [itemW, itemW] [] (by decide), by decide⟩

end TodoTracker
